import Mathlib

/-!
Verification development for the HabitX icon generator (`generate_icon.py`).

The script draws three icon themes (red minimalist, purple gradient, dark
symbolic) on 1024×1024 RGBA canvases and exports four PNG variants per theme
(icon, adaptive icon, 48×48 favicon, 2048×2048 splash).  Below, the pure parts
of the script (path construction, per-row gradient arithmetic, layout
constants, draw coverage) are embedded as executable Lean definitions; the
drawing-library primitives that the script calls (rounded-rectangle fill,
LANCZOS resize, alpha-masked paste) are modelled where noted.
-/

set_option maxHeartbeats 1000000

namespace HabitX

/-- Module constant `SIZE = 1024` (src line 5): edge length of every icon canvas. -/
def SIZE : ℕ := 1024

/-- Module constant `SS = 4` (src line 6): the super-sampling factor. -/
def SS : ℕ := 4

/-- An 8-bit RGBA pixel value. -/
structure RGBA where
  r : ℕ
  g : ℕ
  b : ℕ
  a : ℕ
deriving DecidableEq, Repr

/-- The fully transparent pixel `(0, 0, 0, 0)` used to initialise the
supersampled canvas in `_aa_rounded_rect` (src line 10). -/
def clearPx : RGBA := ⟨0, 0, 0, 0⟩

/-- An image: a width, a height and a pixel function. -/
structure Img where
  width : ℕ
  height : ℕ
  pix : ℕ → ℕ → RGBA

/-- Membership of the integer point `(x, y)` in the rounded rectangle spanning
`[0, W] × [0, W]` with corner radius `R`: the union of the two axis-aligned
bands and the four corner discs.  This is the fill region of
`ImageDraw.rounded_rectangle([(0, 0), (W, W)], radius=R)` (src lines 12–16) at
integer pixel coordinates. -/
def inRoundedRect (W R x y : ℤ) : Prop :=
  (R ≤ x ∧ x ≤ W - R) ∨ (R ≤ y ∧ y ≤ W - R) ∨
  (x - R) ^ 2 + (y - R) ^ 2 ≤ R ^ 2 ∨
  (x - (W - R)) ^ 2 + (y - R) ^ 2 ≤ R ^ 2 ∨
  (x - R) ^ 2 + (y - (W - R)) ^ 2 ≤ R ^ 2 ∨
  (x - (W - R)) ^ 2 + (y - (W - R)) ^ 2 ≤ R ^ 2

instance (W R x y : ℤ) : Decidable (inRoundedRect W R x y) := by
  unfold inRoundedRect; infer_instance

/-- Pixel `(x, y)` of the supersampled canvas built by `_aa_rounded_rect`
(src lines 10–16): a `(S·SS) × (S·SS)` transparent canvas on which the rounded
rectangle of radius `r·SS` is drawn with the given fill. -/
def bigPixel (S r : ℕ) (fill : RGBA) (x y : ℕ) : RGBA :=
  if inRoundedRect (S * SS) (r * SS) x y then fill else clearPx

/-- Sum of a pixel-channel function over the `SS × SS` block of supersampled
pixels that downsamples to output pixel `(ox, oy)`. -/
def blockSum (g : ℕ → ℕ → ℕ) (ox oy : ℕ) : ℕ :=
  ∑ i ∈ Finset.range SS, ∑ j ∈ Finset.range SS, g (ox * SS + i) (oy * SS + j)

/-- Modelled from the spec: `Image.resize((size, size), Image.LANCZOS)`
(src line 17) is a drawing-library call; the spec (§4.1) allows "Lanczos or
equivalent area-averaging filter", and we model it as the area average of each
`SS × SS` source block, channel-wise with the library's integer rounding. -/
def blockAvg (f : ℕ → ℕ → RGBA) (ox oy : ℕ) : RGBA :=
  ⟨blockSum (fun x y => (f x y).r) ox oy / (SS * SS),
   blockSum (fun x y => (f x y).g) ox oy / (SS * SS),
   blockSum (fun x y => (f x y).b) ox oy / (SS * SS),
   blockSum (fun x y => (f x y).a) ox oy / (SS * SS)⟩

/-- Embedding of `_aa_rounded_rect(size, radius, fill)` (src lines 8–17):
draw the rounded rectangle at `SS×` resolution, then downsample to
`size × size`. -/
def aaRoundedRect (S r : ℕ) (fill : RGBA) : Img :=
  ⟨S, S, fun ox oy => blockAvg (bigPixel S r fill) ox oy⟩

/-! ### Purple gradient (create_purple_modern, src lines 87–161) -/

/-- One channel of one gradient row (src lines 104–107):
`int(c0 + (c1 - c0) * t)` with `t = y / SIZE`.  The Python float computation is
exact here (all intermediate values are dyadic rationals with denominator
`SIZE = 2^10` and fewer than 53 mantissa bits), so it is embedded as exact
rational arithmetic; `int()` truncates toward zero, which equals `Int.floor`
because every value arising in the script is nonnegative. -/
def gradRowChan (c0 c1 y : ℕ) : ℤ :=
  Int.floor ((c0 : ℚ) + ((c1 : ℚ) - (c0 : ℚ)) * ((y : ℚ) / ((SIZE : ℕ) : ℚ)))

/-- Gradient endpoint `PURPLE_DARK = (126, 34, 206)` (src line 90). -/
def PURPLE_DARK : ℕ × ℕ × ℕ := (126, 34, 206)

/-- Gradient endpoint `PURPLE_LIGHT = (168, 85, 247)` (src line 91). -/
def PURPLE_LIGHT : ℕ × ℕ × ℕ := (168, 85, 247)

/-- The `(r, g, b)` values written to every pixel of gradient row `y`
(src lines 103–109). -/
def gradRow (y : ℕ) : ℤ × ℤ × ℤ :=
  (gradRowChan PURPLE_DARK.1 PURPLE_LIGHT.1 y,
   gradRowChan PURPLE_DARK.2.1 PURPLE_LIGHT.2.1 y,
   gradRowChan PURPLE_DARK.2.2 PURPLE_LIGHT.2.2 y)

/-- The channel value the spec's numeric-semantics sentence prescribes:
`round(c0 + (c1 - c0) * t)` with `t = y / height`, clamped to `[0, 255]`
(spec §4.2).  Stated from the spec's words, to be compared with
`gradRowChan`, which is the code's computation. -/
def specRowChan (c0 c1 y : ℕ) : ℤ :=
  max 0 (min 255 (round ((c0 : ℚ) + ((c1 : ℚ) - (c0 : ℚ)) * ((y : ℚ) / ((SIZE : ℕ) : ℚ)))))

/-! ### Font resolution (create_purple_modern, src lines 148–151) -/

/-- A loaded font: either a named truetype font at a pixel size, or the
library's built-in default bitmap font (`ImageFont.load_default()`). -/
inductive FontHandle where
  | truetype (name : String) (size : ℕ)
  | defaultFont
deriving DecidableEq, Repr

/-- The runtime font environment: which `ImageFont.truetype(name, size)` calls
succeed.  `none` models the call raising (font file absent). -/
def FontEnv : Type := String → ℕ → Option FontHandle

/-- Embedding of the font lookup in `create_purple_modern` (src lines 148–151):
`try: font = ImageFont.truetype("arialbd.ttf", 96)` and on any exception
`font = ImageFont.load_default()`.  The bare `except:` catches every failure,
so the resolver is a total function. -/
def resolveFont (env : FontEnv) : FontHandle :=
  match env "arialbd.ttf" 96 with
  | some f => f
  | none => FontHandle.defaultFont

/-! ### Output paths (`_save_variants`, src lines 19–46) -/

/-- Path of the main icon: `f"assets/images/{base_name}.png"` (src line 22). -/
def path_icon (base : String) : String :=
  "assets/images/" ++ base ++ ".png"

/-- Path of the adaptive icon (src lines 27–28): `adaptive-{base_name}.png`,
overridden to the standard name when the base name is `icon`. -/
def path_adaptive (base : String) : String :=
  if base = "icon" then "assets/images/adaptive-icon.png"
  else "assets/images/adaptive-" ++ base ++ ".png"

/-- Path of the favicon (src lines 34–35): `favicon-{base_name}.png`,
overridden to the standard name when the base name is `icon`. -/
def path_favicon (base : String) : String :=
  if base = "icon" then "assets/images/favicon.png"
  else "assets/images/favicon-" ++ base ++ ".png"

/-- Path of the splash screen (src lines 43–44): `splash-{base_name}.png`,
overridden to the standard name when the base name is `icon`. -/
def path_splash (base : String) : String :=
  if base = "icon" then "assets/images/splash.png"
  else "assets/images/splash-" ++ base ++ ".png"

/-- The four paths written by one `_save_variants` call, in write order. -/
def savePaths (base : String) : List String :=
  [path_icon base, path_adaptive base, path_favicon base, path_splash base]

/-- All paths written by the full pipeline (src lines 212–214):
`create_red_minimalist` (base `icon`), then `create_purple_modern`
(base `icon-modern`), then `create_dark_symbolic` (base `icon-dark`). -/
def pipelinePaths : List String :=
  savePaths "icon" ++ savePaths "icon-modern" ++ savePaths "icon-dark"

/-! ### The exporter's image operations (`_save_variants`, src lines 19–46) -/

/-- The opaque splash background `(*splash_bg, 255)` (src line 40). -/
def splashBgPx (bg : ℕ × ℕ × ℕ) : RGBA := ⟨bg.1, bg.2.1, bg.2.2, 255⟩

/-- Splash canvas edge: `SIZE * 2` (src line 40). -/
def splashCanvasEdge : ℕ := SIZE * 2

/-- The paste offset `((SIZE * 2 - SIZE) // 2, (SIZE * 2 - SIZE) // 2)`
(src line 41), computed from the module constant `SIZE`. -/
def splashOffset : ℕ × ℕ := ((SIZE * 2 - SIZE) / 2, (SIZE * 2 - SIZE) / 2)

/-- Modelled from the spec: `img.resize((w, h), Image.LANCZOS)` (src line 33)
is a drawing-library call; it is modelled as coordinate-scaled sampling into a
fresh `w × h` image.  No claim below depends on the resampled pixel values,
only on the result being a new image of the stated size. -/
def resizeTo (img : Img) (w h : ℕ) : Img :=
  ⟨w, h, fun x y => img.pix (x * img.width / w) (y * img.height / h)⟩

/-- Modelled from the spec: alpha compositing of `src` over `dst` performed by
`splash.paste(img, offset, img)` (src line 42), which uses the pasted image's
own alpha band as the mask. -/
def blendPx (src dst : RGBA) : RGBA :=
  ⟨(src.r * src.a + dst.r * (255 - src.a)) / 255,
   (src.g * src.a + dst.g * (255 - src.a)) / 255,
   (src.b * src.a + dst.b * (255 - src.a)) / 255,
   (src.a * src.a + dst.a * (255 - src.a)) / 255⟩

/-- A fresh solid-colour canvas: `Image.new("RGBA", (w, h), c)`. -/
def newImg (w h : ℕ) (c : RGBA) : Img := ⟨w, h, fun _ _ => c⟩

/-- The splash composite (src lines 40–42): a `SIZE*2 × SIZE*2` canvas filled
with the opaque background colour, with `img` pasted at `splashOffset` through
its own alpha channel. -/
def splashOf (img : Img) (bg : ℕ × ℕ × ℕ) : Img :=
  ⟨SIZE * 2, SIZE * 2, fun x y =>
    if splashOffset.1 ≤ x ∧ x < splashOffset.1 + img.width ∧
       splashOffset.2 ≤ y ∧ y < splashOffset.2 + img.height then
      blendPx (img.pix (x - splashOffset.1) (y - splashOffset.2)) (splashBgPx bg)
    else splashBgPx bg⟩

/-! ### The exporter as a file-system transformer -/

/-- A file system: an association list from paths to saved image contents,
later writes shadowing earlier ones.  PNG serialisation embeds no timestamp or
randomness (spec §8.4), so file contents are identified with the image saved. -/
def FS : Type := List (String × Img)

/-- Write (create or overwrite) a file. -/
def fsWrite (fs : FS) (p : String) (c : Img) : FS := (p, c) :: fs

/-- Read a file: the most recent write to the path wins. -/
def readFile : FS → String → Option Img
  | [], _ => none
  | (e :: t), p => if p = e.1 then some e.2 else readFile t p

/-- The favicon `fav = img.resize((48, 48), Image.LANCZOS)` (src line 33). -/
def favOf (img : Img) : Img := resizeTo img 48 48

/-- Embedding of `_save_variants(img, base_name, splash_bg)` (src lines 19–46)
as a file-system transformer: write the icon, the adaptive copy, the 48×48
favicon and the splash composite, in source order.  Every written content is
computed from the arguments alone; nothing is read back from the file
system. -/
def saveVariants (img : Img) (base : String) (bg : ℕ × ℕ × ℕ) (fs : FS) : FS :=
  fsWrite
    (fsWrite
      (fsWrite (fsWrite fs (path_icon base) img) (path_adaptive base) img)
      (path_favicon base) (favOf img))
    (path_splash base) (splashOf img bg)

/-! ### The exporter as an image-store transformer -/

/-- The empty placeholder image (out-of-range store reads). -/
def emptyImg : Img := ⟨0, 0, fun _ _ => clearPx⟩

/-- Embedding of `_save_variants` over an explicit store of image buffers,
tracking which buffer each drawing-library call reads or mutates: the two
`img.save` calls only read; `img.resize` (src line 33) and `Image.new`
(src line 40) append fresh buffers; `splash.paste(img, offset, img)`
(src line 42) mutates the splash buffer in place.  Returns the store after the
call. -/
def saveVariantsStore (store : List Img) (imgRef : ℕ) (bg : ℕ × ℕ × ℕ) : List Img :=
  ((store ++ [favOf (store.getD imgRef emptyImg)]) ++
      [newImg (SIZE * 2) (SIZE * 2) (splashBgPx bg)]).set
    (store ++ [favOf (store.getD imgRef emptyImg)]).length
    (splashOf (store.getD imgRef emptyImg) bg)

/-! ### Dark symbolic theme (create_dark_symbolic, src lines 165–202) -/

/-- The accent colour `ACCENT = (168, 85, 247)` (src line 169), drawn opaque. -/
def ACCENT : RGBA := ⟨168, 85, 247, 255⟩

/-- The background `BG_COLOR = (15, 23, 42)` (src line 168), drawn opaque. -/
def DARK_BG : RGBA := ⟨15, 23, 42, 255⟩

/-- The translucent ring fill `(*WHITE, 50)` (src line 181). -/
def RING_WHITE : RGBA := ⟨255, 255, 255, 50⟩

/-- Opaque white, the checkmark colour (src line 192). -/
def WHITE_PX : RGBA := ⟨255, 255, 255, 255⟩

/-- Membership of point `(x, y)` in the closed disc of centre `(cx, cy)` and
radius `rad`: the fill region of an `ImageDraw.ellipse` call with the
corresponding bounding box. -/
def inDisc (cx cy rad x y : ℤ) : Prop :=
  (x - cx) ^ 2 + (y - cy) ^ 2 ≤ rad ^ 2

instance (cx cy rad x y : ℤ) : Decidable (inDisc cx cy rad x y) := by
  unfold inDisc; infer_instance

/-- Point `(px, py)` lies within distance `rad` of the segment from
`(ax, ay)` to `(bx, b2y)`: coverage of one stroke of a thick `ImageDraw.line`
with round joints, via the clamped-projection distance test in integer
arithmetic. -/
def segDistLe (ax ay bx b2y px py rad : ℤ) : Prop :=
  let dx := bx - ax
  let dy := b2y - ay
  let ux := px - ax
  let uy := py - ay
  if dx * ux + dy * uy ≤ 0 then ux ^ 2 + uy ^ 2 ≤ rad ^ 2
  else if dx * dx + dy * dy ≤ dx * ux + dy * uy then
    (px - bx) ^ 2 + (py - b2y) ^ 2 ≤ rad ^ 2
  else
    (ux ^ 2 + uy ^ 2) * (dx * dx + dy * dy) - (dx * ux + dy * uy) ^ 2 ≤
      rad ^ 2 * (dx * dx + dy * dy)

instance (ax ay bx b2y px py rad : ℤ) : Decidable (segDistLe ax ay bx b2y px py rad) := by
  unfold segDistLe; infer_instance

/-- Coverage of the checkmark polyline (src lines 187–192): the two segments
`(372, 522)–(482, 642)` and `(482, 642)–(672, 402)` stroked at width 56
(half-width 28). -/
def inCheck (x y : ℤ) : Prop :=
  segDistLe 372 522 482 642 x y 28 ∨ segDistLe 482 642 672 402 x y 28

instance (x y : ℤ) : Decidable (inCheck x y) := by
  unfold inCheck; infer_instance

/-- Final pixel of the dark-symbolic icon (src lines 165–202).  Draw calls
replace pixels in their coverage region, so the last draw wins and the pixel
is resolved by testing the draws in reverse source order: the corrected
centred dot (src line 200, centre `(512, 232)` radius 32), the first, offset
dot (src line 197, bounding box `[(cx, dot_cy-32), (cx+64, dot_cy+32)]`, i.e.
centre `(544, 232)` radius 32), the checkmark, the inner punch-out disc
(radius 260), the outer ring disc (radius 300), and the supersampled
rounded-rectangle background. -/
def darkSymbolicPixel (x y : ℕ) : RGBA :=
  if inDisc 512 232 32 x y then ACCENT
  else if inDisc 544 232 32 x y then ACCENT
  else if inCheck x y then WHITE_PX
  else if inDisc 512 512 260 x y then DARK_BG
  else if inDisc 512 512 300 x y then RING_WHITE
  else blockAvg (bigPixel SIZE 220 DARK_BG) x y

/-! ## Helper lemmas -/

/-- The gradient channel computation in closed Nat form: for `c0 ≤ c1` the
floored interpolation equals `c0 + (c1 - c0) * y / SIZE` with Nat division. -/
theorem gradChan_eq (c0 c1 y : ℕ) (h : c0 ≤ c1) :
    gradRowChan c0 c1 y = ((c0 + (c1 - c0) * y / SIZE : ℕ) : ℤ) := by
  unfold gradRowChan
  have h1 : ((c1 : ℚ) - (c0 : ℚ)) * ((y : ℚ) / ((SIZE : ℕ) : ℚ)) =
      ((((c1 - c0) * y : ℕ) : ℚ)) / ((SIZE : ℕ) : ℚ) := by
    push_cast [h]
    ring
  rw [h1, add_comm, Int.floor_add_nat, Rat.floor_natCast_div_natCast]
  push_cast
  ring

/-- Monotonicity of the gradient channel in the row index when `c0 ≤ c1`. -/
theorem gradChan_mono (c0 c1 : ℕ) (h : c0 ≤ c1) {y1 y2 : ℕ} (h12 : y1 ≤ y2) :
    gradRowChan c0 c1 y1 ≤ gradRowChan c0 c1 y2 := by
  rw [gradChan_eq c0 c1 y1 h, gradChan_eq c0 c1 y2 h]
  have hdiv : (c1 - c0) * y1 / SIZE ≤ (c1 - c0) * y2 / SIZE :=
    Nat.div_le_div_right (Nat.mul_le_mul_left _ h12)
  exact_mod_cast Nat.add_le_add_left hdiv c0

/-- The gradient channel stays inside the 8-bit range for in-range endpoints. -/
theorem gradChan_bounds (c0 c1 y : ℕ) (h : c0 ≤ c1) (h255 : c1 ≤ 255) (hy : y ≤ SIZE) :
    0 ≤ gradRowChan c0 c1 y ∧ gradRowChan c0 c1 y ≤ 255 := by
  rw [gradChan_eq c0 c1 y h]
  have hdiv : (c1 - c0) * y / SIZE ≤ c1 - c0 := by
    calc (c1 - c0) * y / SIZE ≤ (c1 - c0) * SIZE / SIZE :=
          Nat.div_le_div_right (Nat.mul_le_mul_left _ hy)
    _ = c1 - c0 := Nat.mul_div_cancel _ (by norm_num [SIZE])
  constructor
  · exact_mod_cast Nat.zero_le _
  · exact_mod_cast by omega

/-- A block sum over constant channel values. -/
theorem blockSum_const (g : ℕ → ℕ → ℕ) (ox oy v : ℕ)
    (h : ∀ i j, i < SS → j < SS → g (ox * SS + i) (oy * SS + j) = v) :
    blockSum g ox oy = SS * SS * v := by
  unfold blockSum
  rw [Finset.sum_congr rfl fun i hi =>
    Finset.sum_congr rfl fun j hj =>
      h i j (Finset.mem_range.mp hi) (Finset.mem_range.mp hj)]
  simp [Finset.sum_const, Finset.card_range, mul_assoc]

/-- A block average over constant pixels returns that pixel. -/
theorem blockAvg_const (f : ℕ → ℕ → RGBA) (ox oy : ℕ) (c : RGBA)
    (h : ∀ i j, i < SS → j < SS → f (ox * SS + i) (oy * SS + j) = c) :
    blockAvg f ox oy = c := by
  unfold blockAvg
  rw [blockSum_const (fun x y => (f x y).r) ox oy c.r fun i j hi hj => by simp [h i j hi hj],
    blockSum_const (fun x y => (f x y).g) ox oy c.g fun i j hi hj => by simp [h i j hi hj],
    blockSum_const (fun x y => (f x y).b) ox oy c.b fun i j hi hj => by simp [h i j hi hj],
    blockSum_const (fun x y => (f x y).a) ox oy c.a fun i j hi hj => by simp [h i j hi hj]]
  cases c with
  | mk r g b a =>
    simp only [SS, RGBA.mk.injEq]
    refine ⟨?_, ?_, ?_, ?_⟩ <;> omega

/-- For `3 ≤ r`, every supersampled pixel of the corner block that downsamples
to output pixel `(0, 0)` lies outside the rounded rectangle. -/
theorem corner_block_outside (S r x y : ℕ) (h3 : 3 ≤ r) (hS : 2 * r < S)
    (hx : x < SS) (hy : y < SS) :
    ¬ inRoundedRect ((S * SS : ℕ) : ℤ) ((r * SS : ℕ) : ℤ) (x : ℤ) (y : ℤ) := by
  simp only [SS] at hx hy
  unfold inRoundedRect
  push_cast
  have hx' : (x : ℤ) ≤ 3 := by exact_mod_cast Nat.lt_succ_iff.mp hx
  have hy' : (y : ℤ) ≤ 3 := by exact_mod_cast Nat.lt_succ_iff.mp hy
  have hx0 : (0 : ℤ) ≤ (x : ℤ) := Int.natCast_nonneg x
  have hy0 : (0 : ℤ) ≤ (y : ℤ) := Int.natCast_nonneg y
  have hr : (3 : ℤ) ≤ (r : ℤ) := by exact_mod_cast h3
  have hrs : 2 * (r : ℤ) < (S : ℤ) := by exact_mod_cast hS
  simp only [SS]
  push_cast
  rintro (⟨h1, _⟩ | ⟨h1, _⟩ | h | h | h | h)
  · linarith
  · linarith
  · -- top-left corner disc
    have hxx : ((r : ℤ) * 4 - 3) ^ 2 ≤ ((x : ℤ) - (r : ℤ) * 4) ^ 2 := by
      nlinarith [mul_nonneg (by linarith : (0 : ℤ) ≤ 3 - (x : ℤ))
        (by linarith : (0 : ℤ) ≤ 2 * ((r : ℤ) * 4) - 3 - (x : ℤ))]
    have hyy : ((r : ℤ) * 4 - 3) ^ 2 ≤ ((y : ℤ) - (r : ℤ) * 4) ^ 2 := by
      nlinarith [mul_nonneg (by linarith : (0 : ℤ) ≤ 3 - (y : ℤ))
        (by linarith : (0 : ℤ) ≤ 2 * ((r : ℤ) * 4) - 3 - (y : ℤ))]
    nlinarith [mul_nonneg (by linarith : (0 : ℤ) ≤ (r : ℤ) * 4)
      (by linarith : (0 : ℤ) ≤ (r : ℤ) * 4 - 12)]
  · -- top-right corner disc
    have hxx : ((r : ℤ) * 4 + 1) ^ 2 ≤ ((x : ℤ) - ((S : ℤ) * 4 - (r : ℤ) * 4)) ^ 2 := by
      nlinarith [mul_nonneg
        (by linarith : (0 : ℤ) ≤ (S : ℤ) * 4 - (r : ℤ) * 4 - (x : ℤ) - ((r : ℤ) * 4 + 1))
        (by linarith : (0 : ℤ) ≤ (S : ℤ) * 4 - (r : ℤ) * 4 - (x : ℤ) + ((r : ℤ) * 4 + 1))]
    nlinarith [sq_nonneg ((y : ℤ) - (r : ℤ) * 4)]
  · -- bottom-left corner disc
    have hyy : ((r : ℤ) * 4 + 1) ^ 2 ≤ ((y : ℤ) - ((S : ℤ) * 4 - (r : ℤ) * 4)) ^ 2 := by
      nlinarith [mul_nonneg
        (by linarith : (0 : ℤ) ≤ (S : ℤ) * 4 - (r : ℤ) * 4 - (y : ℤ) - ((r : ℤ) * 4 + 1))
        (by linarith : (0 : ℤ) ≤ (S : ℤ) * 4 - (r : ℤ) * 4 - (y : ℤ) + ((r : ℤ) * 4 + 1))]
    nlinarith [sq_nonneg ((x : ℤ) - (r : ℤ) * 4)]
  · -- bottom-right corner disc
    have hxx : ((r : ℤ) * 4 + 1) ^ 2 ≤ ((x : ℤ) - ((S : ℤ) * 4 - (r : ℤ) * 4)) ^ 2 := by
      nlinarith [mul_nonneg
        (by linarith : (0 : ℤ) ≤ (S : ℤ) * 4 - (r : ℤ) * 4 - (x : ℤ) - ((r : ℤ) * 4 + 1))
        (by linarith : (0 : ℤ) ≤ (S : ℤ) * 4 - (r : ℤ) * 4 - (x : ℤ) + ((r : ℤ) * 4 + 1))]
    nlinarith [sq_nonneg ((y : ℤ) - ((S : ℤ) * 4 - (r : ℤ) * 4))]

/-- The rounded-rectangle region is symmetric in `x` and `y`. -/
theorem inRoundedRect_swap (W R x y : ℤ) (h : inRoundedRect W R x y) :
    inRoundedRect W R y x := by
  unfold inRoundedRect at h ⊢
  rcases h with ⟨h1, h2⟩ | ⟨h1, h2⟩ | h | h | h | h
  · exact Or.inr (Or.inl ⟨h1, h2⟩)
  · exact Or.inl ⟨h1, h2⟩
  · exact Or.inr (Or.inr (Or.inl (by linarith)))
  · exact Or.inr (Or.inr (Or.inr (Or.inr (Or.inl (by linarith)))))
  · exact Or.inr (Or.inr (Or.inr (Or.inl (by linarith))))
  · exact Or.inr (Or.inr (Or.inr (Or.inr (Or.inr (by linarith)))))

/-- For `4 ≤ r`, every supersampled pixel of the block downsampling to the
corner pixel `(S-1, 0)` lies outside the rounded rectangle. -/
theorem corner_block_outside_xhigh (S r x y : ℕ) (h4 : 4 ≤ r) (hS : 2 * r < S)
    (hx1 : (S - 1) * SS ≤ x) (hx2 : x < S * SS) (hy : y < SS) :
    ¬ inRoundedRect ((S * SS : ℕ) : ℤ) ((r * SS : ℕ) : ℤ) (x : ℤ) (y : ℤ) := by
  simp only [SS] at hx1 hx2 hy
  unfold inRoundedRect
  simp only [SS]
  push_cast
  have hS1 : 1 ≤ S := by omega
  have hxlo : (S : ℤ) * 4 - 4 ≤ (x : ℤ) := by
    have := hx1
    omega
  have hxhi : (x : ℤ) ≤ (S : ℤ) * 4 - 1 := by omega
  have hy' : (y : ℤ) ≤ 3 := by omega
  have hy0 : (0 : ℤ) ≤ (y : ℤ) := Int.natCast_nonneg y
  have hr : (4 : ℤ) ≤ (r : ℤ) := by exact_mod_cast h4
  have hrs : 2 * (r : ℤ) < (S : ℤ) := by exact_mod_cast hS
  rintro (⟨_, h2⟩ | ⟨h1, _⟩ | h | h | h | h)
  · linarith
  · linarith
  · -- top-left corner disc: x is far to the right of it
    have hA : ((r : ℤ) * 4) ^ 2 ≤ ((x : ℤ) - (r : ℤ) * 4) ^ 2 := by
      nlinarith [mul_nonneg (by linarith : (0 : ℤ) ≤ (x : ℤ) - (r : ℤ) * 4 - (r : ℤ) * 4)
        (by linarith : (0 : ℤ) ≤ (x : ℤ) - (r : ℤ) * 4 + (r : ℤ) * 4)]
    have hB : ((r : ℤ) * 4 - 3) ^ 2 ≤ ((y : ℤ) - (r : ℤ) * 4) ^ 2 := by
      nlinarith [mul_nonneg (by linarith : (0 : ℤ) ≤ 3 - (y : ℤ))
        (by linarith : (0 : ℤ) ≤ 2 * ((r : ℤ) * 4) - 3 - (y : ℤ))]
    nlinarith [mul_nonneg (by linarith : (0 : ℤ) ≤ (r : ℤ) - 4) (by linarith : (0 : ℤ) ≤ (r : ℤ))]
  · -- top-right corner disc: the nearest block pixel is still outside
    have hA : ((r : ℤ) * 4 - 4) ^ 2 ≤ ((x : ℤ) - ((S : ℤ) * 4 - (r : ℤ) * 4)) ^ 2 := by
      nlinarith [mul_nonneg
        (by linarith : (0 : ℤ) ≤ (x : ℤ) - ((S : ℤ) * 4 - (r : ℤ) * 4) - ((r : ℤ) * 4 - 4))
        (by linarith : (0 : ℤ) ≤ (x : ℤ) - ((S : ℤ) * 4 - (r : ℤ) * 4) + ((r : ℤ) * 4 - 4))]
    have hB : ((r : ℤ) * 4 - 3) ^ 2 ≤ ((y : ℤ) - (r : ℤ) * 4) ^ 2 := by
      nlinarith [mul_nonneg (by linarith : (0 : ℤ) ≤ 3 - (y : ℤ))
        (by linarith : (0 : ℤ) ≤ 2 * ((r : ℤ) * 4) - 3 - (y : ℤ))]
    nlinarith [mul_nonneg (by linarith : (0 : ℤ) ≤ (r : ℤ) - 4) (by linarith : (0 : ℤ) ≤ (r : ℤ))]
  · -- bottom-left corner disc
    have hA : ((r : ℤ) * 4) ^ 2 ≤ ((x : ℤ) - (r : ℤ) * 4) ^ 2 := by
      nlinarith [mul_nonneg (by linarith : (0 : ℤ) ≤ (x : ℤ) - (r : ℤ) * 4 - (r : ℤ) * 4)
        (by linarith : (0 : ℤ) ≤ (x : ℤ) - (r : ℤ) * 4 + (r : ℤ) * 4)]
    have hB : ((r : ℤ) * 4 + 1) ^ 2 ≤ ((y : ℤ) - ((S : ℤ) * 4 - (r : ℤ) * 4)) ^ 2 := by
      nlinarith [mul_nonneg
        (by linarith : (0 : ℤ) ≤ (S : ℤ) * 4 - (r : ℤ) * 4 - (y : ℤ) - ((r : ℤ) * 4 + 1))
        (by linarith : (0 : ℤ) ≤ (S : ℤ) * 4 - (r : ℤ) * 4 - (y : ℤ) + ((r : ℤ) * 4 + 1))]
    nlinarith
  · -- bottom-right corner disc
    have hB : ((r : ℤ) * 4 + 1) ^ 2 ≤ ((y : ℤ) - ((S : ℤ) * 4 - (r : ℤ) * 4)) ^ 2 := by
      nlinarith [mul_nonneg
        (by linarith : (0 : ℤ) ≤ (S : ℤ) * 4 - (r : ℤ) * 4 - (y : ℤ) - ((r : ℤ) * 4 + 1))
        (by linarith : (0 : ℤ) ≤ (S : ℤ) * 4 - (r : ℤ) * 4 - (y : ℤ) + ((r : ℤ) * 4 + 1))]
    nlinarith [sq_nonneg ((x : ℤ) - ((S : ℤ) * 4 - (r : ℤ) * 4))]

/-- For `4 ≤ r`, every supersampled pixel of the block downsampling to the
corner pixel `(S-1, S-1)` lies outside the rounded rectangle.  (At `r = 3`
this fails: the block pixel `(4S-4, 4S-4)` is inside the bottom-right corner
disc, which is what the second part of the C4 counterexample exhibits.) -/
theorem corner_block_outside_hh (S r x y : ℕ) (h4 : 4 ≤ r) (hS : 2 * r < S)
    (hx1 : (S - 1) * SS ≤ x) (hx2 : x < S * SS)
    (hy1 : (S - 1) * SS ≤ y) (hy2 : y < S * SS) :
    ¬ inRoundedRect ((S * SS : ℕ) : ℤ) ((r * SS : ℕ) : ℤ) (x : ℤ) (y : ℤ) := by
  simp only [SS] at hx1 hx2 hy1 hy2
  unfold inRoundedRect
  simp only [SS]
  push_cast
  have hS1 : 1 ≤ S := by omega
  have hxlo : (S : ℤ) * 4 - 4 ≤ (x : ℤ) := by omega
  have hxhi : (x : ℤ) ≤ (S : ℤ) * 4 - 1 := by omega
  have hylo : (S : ℤ) * 4 - 4 ≤ (y : ℤ) := by omega
  have hyhi : (y : ℤ) ≤ (S : ℤ) * 4 - 1 := by omega
  have hr : (4 : ℤ) ≤ (r : ℤ) := by exact_mod_cast h4
  have hrs : 2 * (r : ℤ) < (S : ℤ) := by exact_mod_cast hS
  rintro (⟨_, h2⟩ | ⟨_, h2⟩ | h | h | h | h)
  · linarith
  · linarith
  · -- top-left corner disc: both coordinates far away
    have hA : ((r : ℤ) * 4) ^ 2 ≤ ((x : ℤ) - (r : ℤ) * 4) ^ 2 := by
      nlinarith [mul_nonneg (by linarith : (0 : ℤ) ≤ (x : ℤ) - (r : ℤ) * 4 - (r : ℤ) * 4)
        (by linarith : (0 : ℤ) ≤ (x : ℤ) - (r : ℤ) * 4 + (r : ℤ) * 4)]
    have hB : ((r : ℤ) * 4) ^ 2 ≤ ((y : ℤ) - (r : ℤ) * 4) ^ 2 := by
      nlinarith [mul_nonneg (by linarith : (0 : ℤ) ≤ (y : ℤ) - (r : ℤ) * 4 - (r : ℤ) * 4)
        (by linarith : (0 : ℤ) ≤ (y : ℤ) - (r : ℤ) * 4 + (r : ℤ) * 4)]
    nlinarith
  · -- top-right corner disc
    have hA : ((r : ℤ) * 4 - 4) ^ 2 ≤ ((x : ℤ) - ((S : ℤ) * 4 - (r : ℤ) * 4)) ^ 2 := by
      nlinarith [mul_nonneg
        (by linarith : (0 : ℤ) ≤ (x : ℤ) - ((S : ℤ) * 4 - (r : ℤ) * 4) - ((r : ℤ) * 4 - 4))
        (by linarith : (0 : ℤ) ≤ (x : ℤ) - ((S : ℤ) * 4 - (r : ℤ) * 4) + ((r : ℤ) * 4 - 4))]
    have hB : ((r : ℤ) * 4) ^ 2 ≤ ((y : ℤ) - (r : ℤ) * 4) ^ 2 := by
      nlinarith [mul_nonneg (by linarith : (0 : ℤ) ≤ (y : ℤ) - (r : ℤ) * 4 - (r : ℤ) * 4)
        (by linarith : (0 : ℤ) ≤ (y : ℤ) - (r : ℤ) * 4 + (r : ℤ) * 4)]
    nlinarith
  · -- bottom-left corner disc
    have hA : ((r : ℤ) * 4) ^ 2 ≤ ((x : ℤ) - (r : ℤ) * 4) ^ 2 := by
      nlinarith [mul_nonneg (by linarith : (0 : ℤ) ≤ (x : ℤ) - (r : ℤ) * 4 - (r : ℤ) * 4)
        (by linarith : (0 : ℤ) ≤ (x : ℤ) - (r : ℤ) * 4 + (r : ℤ) * 4)]
    have hB : ((r : ℤ) * 4 - 4) ^ 2 ≤ ((y : ℤ) - ((S : ℤ) * 4 - (r : ℤ) * 4)) ^ 2 := by
      nlinarith [mul_nonneg
        (by linarith : (0 : ℤ) ≤ (y : ℤ) - ((S : ℤ) * 4 - (r : ℤ) * 4) - ((r : ℤ) * 4 - 4))
        (by linarith : (0 : ℤ) ≤ (y : ℤ) - ((S : ℤ) * 4 - (r : ℤ) * 4) + ((r : ℤ) * 4 - 4))]
    nlinarith
  · -- bottom-right corner disc: needs 4 ≤ r
    have hA : ((r : ℤ) * 4 - 4) ^ 2 ≤ ((x : ℤ) - ((S : ℤ) * 4 - (r : ℤ) * 4)) ^ 2 := by
      nlinarith [mul_nonneg
        (by linarith : (0 : ℤ) ≤ (x : ℤ) - ((S : ℤ) * 4 - (r : ℤ) * 4) - ((r : ℤ) * 4 - 4))
        (by linarith : (0 : ℤ) ≤ (x : ℤ) - ((S : ℤ) * 4 - (r : ℤ) * 4) + ((r : ℤ) * 4 - 4))]
    have hB : ((r : ℤ) * 4 - 4) ^ 2 ≤ ((y : ℤ) - ((S : ℤ) * 4 - (r : ℤ) * 4)) ^ 2 := by
      nlinarith [mul_nonneg
        (by linarith : (0 : ℤ) ≤ (y : ℤ) - ((S : ℤ) * 4 - (r : ℤ) * 4) - ((r : ℤ) * 4 - 4))
        (by linarith : (0 : ℤ) ≤ (y : ℤ) - ((S : ℤ) * 4 - (r : ℤ) * 4) + ((r : ℤ) * 4 - 4))]
    nlinarith [mul_nonneg (by linarith : (0 : ℤ) ≤ (r : ℤ) - 4) (by linarith : (0 : ℤ) ≤ (r : ℤ))]

/-- For `2r < S`, every supersampled pixel of the centre block lies inside the
vertical band of the rounded rectangle. -/
theorem center_block_inside (S r x y : ℕ) (hS : 2 * r < S)
    (hx1 : S / 2 * SS ≤ x) (hx2 : x < S / 2 * SS + SS) :
    inRoundedRect ((S * SS : ℕ) : ℤ) ((r * SS : ℕ) : ℤ) (x : ℤ) (y : ℤ) := by
  simp only [SS] at hx1 hx2
  unfold inRoundedRect
  simp only [SS]
  left
  constructor
  · push_cast
    omega
  · push_cast
    omega

/-! ## Claim theorems -/

/-- C2 (counterexample): the claim says each gradient channel equals
`round(c0 + (c1 - c0) * t)` clamped to `[0, 255]`.  The code uses Python
`int()`, i.e. truncation, not rounding: at row `y = 13` the red channel is
`int(126 + 42 * 13/1024) = int(126.533…) = 126`, while the claimed rounded
value is `127`. -/
theorem C2_counterexample :
    gradRowChan 126 168 13 ≠ specRowChan 126 168 13 ∧
    gradRowChan 126 168 13 = 126 ∧ specRowChan 126 168 13 = 127 := by
  have h1 : gradRowChan 126 168 13 = 126 := by
    unfold gradRowChan SIZE
    rw [Int.floor_eq_iff]
    norm_num
  have h2 : specRowChan 126 168 13 = 127 := by
    unfold specRowChan SIZE
    rw [round_eq]
    rw [show ((127 : ℤ) = max 0 (min 255 127)) from by norm_num]
    congr 1
    congr 1
    rw [Int.floor_eq_iff]
    norm_num
  exact ⟨by rw [h1, h2]; decide, h1, h2⟩

/-- C2 (amended): for every row `y < 1024` the gradient generator's channel
values equal `floor(c0 + (c1 - c0) * t)` with `t = y / height` — Python
`int()` truncation, which coincides with floor since the values are
nonnegative — computed independently per channel, and every channel value lies
in `[0, 255]` without explicit clamping. -/
theorem C2_amended_floor_rows (y : ℕ) (hy : y < SIZE) :
    (gradRow y).1 = ((126 + (168 - 126) * y / SIZE : ℕ) : ℤ) ∧
    (gradRow y).2.1 = ((34 + (85 - 34) * y / SIZE : ℕ) : ℤ) ∧
    (gradRow y).2.2 = ((206 + (247 - 206) * y / SIZE : ℕ) : ℤ) ∧
    (0 ≤ (gradRow y).1 ∧ (gradRow y).1 ≤ 255) ∧
    (0 ≤ (gradRow y).2.1 ∧ (gradRow y).2.1 ≤ 255) ∧
    (0 ≤ (gradRow y).2.2 ∧ (gradRow y).2.2 ≤ 255) := by
  have hy' : y ≤ SIZE := Nat.le_of_lt hy
  simp only [gradRow, PURPLE_DARK, PURPLE_LIGHT]
  exact ⟨gradChan_eq 126 168 y (by norm_num), gradChan_eq 34 85 y (by norm_num),
    gradChan_eq 206 247 y (by norm_num),
    gradChan_bounds 126 168 y (by norm_num) (by norm_num) hy',
    gradChan_bounds 34 85 y (by norm_num) (by norm_num) hy',
    gradChan_bounds 206 247 y (by norm_num) (by norm_num) hy'⟩

/-- C2 witness: the amended statement instantiated at row 13. -/
theorem C2_amended_floor_rows_witness :
    13 < SIZE ∧
    ((gradRow 13).1 = ((126 + (168 - 126) * 13 / SIZE : ℕ) : ℤ) ∧
     (gradRow 13).2.1 = ((34 + (85 - 34) * 13 / SIZE : ℕ) : ℤ) ∧
     (gradRow 13).2.2 = ((206 + (247 - 206) * 13 / SIZE : ℕ) : ℤ) ∧
     (0 ≤ (gradRow 13).1 ∧ (gradRow 13).1 ≤ 255) ∧
     (0 ≤ (gradRow 13).2.1 ∧ (gradRow 13).2.1 ≤ 255) ∧
     (0 ≤ (gradRow 13).2.2 ∧ (gradRow 13).2.2 ≤ 255)) :=
  ⟨by decide, C2_amended_floor_rows 13 (by decide)⟩

/-- C3: the gradient's row 0 equals `PURPLE_DARK = (126, 34, 206)` exactly,
the row at `y = SIZE - 1` is within 1 of `PURPLE_LIGHT = (168, 85, 247)` in
every channel, and every channel (all of which satisfy `c0 ≤ c1`) is
monotonically non-decreasing in the row index over `0 ≤ y < SIZE`. -/
theorem C3_gradient_endpoints_mono (y1 y2 : ℕ) (h12 : y1 ≤ y2) (hy : y2 < SIZE) :
    gradRow 0 = (126, 34, 206) ∧
    (167 ≤ (gradRow (SIZE - 1)).1 ∧ (gradRow (SIZE - 1)).1 ≤ 168 ∧
     84 ≤ (gradRow (SIZE - 1)).2.1 ∧ (gradRow (SIZE - 1)).2.1 ≤ 85 ∧
     246 ≤ (gradRow (SIZE - 1)).2.2 ∧ (gradRow (SIZE - 1)).2.2 ≤ 247) ∧
    ((gradRow y1).1 ≤ (gradRow y2).1 ∧ (gradRow y1).2.1 ≤ (gradRow y2).2.1 ∧
     (gradRow y1).2.2 ≤ (gradRow y2).2.2) := by
  have hstart : gradRow 0 = (126, 34, 206) := by
    simp only [gradRow, PURPLE_DARK, PURPLE_LIGHT]
    rw [gradChan_eq 126 168 0 (by norm_num), gradChan_eq 34 85 0 (by norm_num),
      gradChan_eq 206 247 0 (by norm_num)]
    decide
  have hend : gradRow (SIZE - 1) = (167, 84, 246) := by
    simp only [gradRow, PURPLE_DARK, PURPLE_LIGHT]
    rw [gradChan_eq 126 168 (SIZE - 1) (by norm_num), gradChan_eq 34 85 (SIZE - 1) (by norm_num),
      gradChan_eq 206 247 (SIZE - 1) (by norm_num)]
    decide
  refine ⟨hstart, by rw [hend]; exact ⟨by decide, by decide, by decide, by decide, by decide,
    by decide⟩, ?_, ?_, ?_⟩
  · exact gradChan_mono 126 168 (by norm_num) h12
  · exact gradChan_mono 34 85 (by norm_num) h12
  · exact gradChan_mono 206 247 (by norm_num) h12

/-- C3 witness: the statement instantiated at rows 5 and 7. -/
theorem C3_gradient_endpoints_mono_witness :
    (5 ≤ 7 ∧ 7 < SIZE) ∧
    (gradRow 0 = (126, 34, 206) ∧
     (167 ≤ (gradRow (SIZE - 1)).1 ∧ (gradRow (SIZE - 1)).1 ≤ 168 ∧
      84 ≤ (gradRow (SIZE - 1)).2.1 ∧ (gradRow (SIZE - 1)).2.1 ≤ 85 ∧
      246 ≤ (gradRow (SIZE - 1)).2.2 ∧ (gradRow (SIZE - 1)).2.2 ≤ 247) ∧
     ((gradRow 5).1 ≤ (gradRow 7).1 ∧ (gradRow 5).2.1 ≤ (gradRow 7).2.1 ∧
      (gradRow 5).2.2 ≤ (gradRow 7).2.2)) :=
  ⟨⟨by decide, by decide⟩, C3_gradient_endpoints_mono 5 7 (by decide) (by decide)⟩

/-- C4 (counterexample): the claim quantifies over every radius `r < S/2`, but
for small radii the corner pixels are not fully transparent: at `S = 8`,
`r = 1` (so `r < S/2`) supersampled pixels inside the top-left corner disc
fall in pixel `(0, 0)`'s downsampling block, giving it alpha 127 rather than
0; and at `S = 8`, `r = 3` the bottom-right corner pixel `(7, 7)` has alpha 15
rather than 0. -/
theorem C4_counterexample :
    (2 * 1 < 8 ∧ (aaRoundedRect 8 1 ⟨220, 38, 38, 255⟩).pix 0 0 ≠ clearPx) ∧
    (2 * 3 < 8 ∧ (aaRoundedRect 8 3 ⟨220, 38, 38, 255⟩).pix 7 7 ≠ clearPx) :=
  ⟨⟨by decide, by decide⟩, ⟨by decide, by decide⟩⟩

/-- C4 (amended): for every canvas size `S` and radius `r` with `4 ≤ r` and
`r < S/2`, the supersampled rounded-rectangle renderer returns an `S × S`
image, all four exact corner pixels — `(0, 0)`, `(S-1, 0)`, `(0, S-1)`,
`(S-1, S-1)` — are fully transparent, and the centre pixel `(S/2, S/2)`
equals the requested fill colour. -/
theorem C4_amended_rounded_rect (S r : ℕ) (fill : RGBA) (h4 : 4 ≤ r) (hS : 2 * r < S) :
    (aaRoundedRect S r fill).width = S ∧ (aaRoundedRect S r fill).height = S ∧
    (aaRoundedRect S r fill).pix 0 0 = clearPx ∧
    (aaRoundedRect S r fill).pix (S - 1) 0 = clearPx ∧
    (aaRoundedRect S r fill).pix 0 (S - 1) = clearPx ∧
    (aaRoundedRect S r fill).pix (S - 1) (S - 1) = clearPx ∧
    (aaRoundedRect S r fill).pix (S / 2) (S / 2) = fill := by
  refine ⟨rfl, rfl, ?_, ?_, ?_, ?_, ?_⟩
  · show blockAvg (bigPixel S r fill) 0 0 = clearPx
    apply blockAvg_const
    intro i j hi hj
    unfold bigPixel
    rw [if_neg]
    exact corner_block_outside S r (0 * SS + i) (0 * SS + j) (by omega) hS
      (by simpa using hi) (by simpa using hj)
  · show blockAvg (bigPixel S r fill) (S - 1) 0 = clearPx
    apply blockAvg_const
    intro i j hi hj
    unfold bigPixel
    rw [if_neg]
    exact corner_block_outside_xhigh S r ((S - 1) * SS + i) (0 * SS + j) h4 hS
      (Nat.le_add_right _ _) (by simp only [SS] at hi ⊢; omega) (by simpa using hj)
  · show blockAvg (bigPixel S r fill) 0 (S - 1) = clearPx
    apply blockAvg_const
    intro i j hi hj
    unfold bigPixel
    rw [if_neg]
    intro hmem
    exact corner_block_outside_xhigh S r ((S - 1) * SS + j) (0 * SS + i) h4 hS
      (Nat.le_add_right _ _) (by simp only [SS] at hj ⊢; omega) (by simpa using hi)
      (inRoundedRect_swap _ _ _ _ hmem)
  · show blockAvg (bigPixel S r fill) (S - 1) (S - 1) = clearPx
    apply blockAvg_const
    intro i j hi hj
    unfold bigPixel
    rw [if_neg]
    exact corner_block_outside_hh S r ((S - 1) * SS + i) ((S - 1) * SS + j) h4 hS
      (Nat.le_add_right _ _) (by simp only [SS] at hi ⊢; omega)
      (Nat.le_add_right _ _) (by simp only [SS] at hj ⊢; omega)
  · show blockAvg (bigPixel S r fill) (S / 2) (S / 2) = fill
    apply blockAvg_const
    intro i j hi hj
    unfold bigPixel
    rw [if_pos]
    exact center_block_inside S r (S / 2 * SS + i) (S / 2 * SS + j) hS
      (Nat.le_add_right _ _) (Nat.add_lt_add_left hi _)

/-- C4 witness: the amended statement instantiated at `S = 9`, `r = 4`. -/
theorem C4_amended_rounded_rect_witness :
    (4 ≤ 4 ∧ 2 * 4 < 9) ∧
    ((aaRoundedRect 9 4 ⟨220, 38, 38, 255⟩).width = 9 ∧
     (aaRoundedRect 9 4 ⟨220, 38, 38, 255⟩).height = 9 ∧
     (aaRoundedRect 9 4 ⟨220, 38, 38, 255⟩).pix 0 0 = clearPx ∧
     (aaRoundedRect 9 4 ⟨220, 38, 38, 255⟩).pix (9 - 1) 0 = clearPx ∧
     (aaRoundedRect 9 4 ⟨220, 38, 38, 255⟩).pix 0 (9 - 1) = clearPx ∧
     (aaRoundedRect 9 4 ⟨220, 38, 38, 255⟩).pix (9 - 1) (9 - 1) = clearPx ∧
     (aaRoundedRect 9 4 ⟨220, 38, 38, 255⟩).pix (9 / 2) (9 / 2) = ⟨220, 38, 38, 255⟩) :=
  ⟨⟨by decide, by decide⟩, C4_amended_rounded_rect 9 4 ⟨220, 38, 38, 255⟩ (by decide) (by decide)⟩

/-- C1 (counterexample): the pipeline writes 12 files, but the backup themes'
favicon and splash files are named `favicon-icon-<theme>.png` and
`splash-icon-<theme>.png` (the `favicon-`/`splash-` prefix is applied to the
whole base name `icon-<theme>`), not `favicon-<theme>.png` and
`splash-<theme>.png` as the claim's filename list says. -/
theorem C1_counterexample :
    "assets/images/favicon-modern.png" ∉ pipelinePaths ∧
    "assets/images/splash-modern.png" ∉ pipelinePaths ∧
    "assets/images/favicon-dark.png" ∉ pipelinePaths ∧
    "assets/images/splash-dark.png" ∉ pipelinePaths ∧
    "assets/images/favicon-icon-modern.png" ∈ pipelinePaths := by
  decide

/-- C1 (amended): the full pipeline writes exactly 12 distinct files: for the
primary theme `icon.png`, `adaptive-icon.png`, `favicon.png`, `splash.png`,
and for each backup theme with base name `icon-<theme>` the files
`icon-<theme>.png`, `adaptive-icon-<theme>.png`, `favicon-icon-<theme>.png`,
`splash-icon-<theme>.png`. -/
theorem C1_amended_pipeline_files :
    pipelinePaths =
      ["assets/images/icon.png", "assets/images/adaptive-icon.png",
       "assets/images/favicon.png", "assets/images/splash.png",
       "assets/images/icon-modern.png", "assets/images/adaptive-icon-modern.png",
       "assets/images/favicon-icon-modern.png", "assets/images/splash-icon-modern.png",
       "assets/images/icon-dark.png", "assets/images/adaptive-icon-dark.png",
       "assets/images/favicon-icon-dark.png", "assets/images/splash-icon-dark.png"] ∧
    pipelinePaths.length = 12 ∧ pipelinePaths.Nodup := by
  refine ⟨by decide, by decide, by decide⟩

/-- C5: the splash paste offset (src line 41) equals
`((2S - S)/2, (2S - S)/2)` for icon edge `S = SIZE` and splash canvas edge
`2S = splashCanvasEdge`, i.e. `(512, 512)`, and it centres the icon exactly:
offset + icon edge + offset = splash canvas edge. -/
theorem C5_splash_offset_centered :
    splashOffset = ((splashCanvasEdge - SIZE) / 2, (splashCanvasEdge - SIZE) / 2) ∧
    splashOffset.1 + SIZE + splashOffset.1 = splashCanvasEdge ∧
    splashOffset.2 + SIZE + splashOffset.2 = splashCanvasEdge ∧
    splashOffset = (512, 512) := by
  refine ⟨by decide, by decide, by decide, by decide⟩

/-- C6: exporter idempotence.  Running `_save_variants` twice with the same
input image, base name and background writes byte-identical contents: after
the second run every file of the file system — in particular each of the four
output files — reads back exactly as after the first run.  This holds because
every written content is a function of the arguments alone (no timestamps, no
randomness, no reads of the existing file system). -/
theorem C6_exporter_idempotent (img : Img) (base : String) (bg : ℕ × ℕ × ℕ)
    (fs : FS) (p : String) :
    readFile (saveVariants img base bg (saveVariants img base bg fs)) p =
      readFile (saveVariants img base bg fs) p := by
  simp only [saveVariants, fsWrite, readFile]
  split_ifs <;> rfl

/-- C7: the first, offset dot draw (src line 197) is not erased by the
corrected centred draw (src line 200): pixel `(562, 232)` lies outside the
centred dot's disc (centre `(512, 232)`, radius 32) yet is accent-coloured in
the final image, because it lies in the leftover crescent of the offset disc
(centre `(544, 232)`). -/
theorem C7_offset_dot_residue :
    darkSymbolicPixel 562 232 = ACCENT ∧ ¬ inDisc 512 232 32 562 232 :=
  ⟨by decide, by decide⟩

/-- C8: if every font candidate fails to load (the single candidate
`arialbd.ttf` at size 96 raises), the resolver returns the built-in default
font handle; it is a total function, so the failure never propagates and icon
generation continues. -/
theorem C8_font_fallback_default (env : FontEnv) (h : env "arialbd.ttf" 96 = none) :
    resolveFont env = FontHandle.defaultFont := by
  unfold resolveFont
  rw [h]

/-- C8 witness: the environment in which no truetype font loads. -/
theorem C8_font_fallback_default_witness :
    ((fun _ _ => none : FontEnv) "arialbd.ttf" 96 = none) ∧
    resolveFont (fun _ _ => none : FontEnv) = FontHandle.defaultFont :=
  ⟨rfl, C8_font_fallback_default (fun _ _ => none) rfl⟩

/-- C9: the exporter never mutates its input image.  In the store embedding of
`_save_variants`, the favicon resize and the splash canvas are fresh buffers
and the only in-place mutation (`splash.paste`) targets the fresh splash
buffer, so the input image's buffer is unchanged after the call. -/
theorem C9_exporter_preserves_input (store : List Img) (imgRef : ℕ) (bg : ℕ × ℕ × ℕ)
    (h : imgRef < store.length) :
    (saveVariantsStore store imgRef bg)[imgRef]? = store[imgRef]? := by
  unfold saveVariantsStore
  rw [List.getElem?_set_ne (by simp; omega)]
  rw [List.getElem?_append_left (by simp; omega)]
  rw [List.getElem?_append_left h]

/-- C9 witness: a one-image store. -/
theorem C9_exporter_preserves_input_witness :
    0 < ([newImg 4 4 clearPx] : List Img).length ∧
    (saveVariantsStore [newImg 4 4 clearPx] 0 (0, 0, 0))[0]? =
      ([newImg 4 4 clearPx] : List Img)[0]? :=
  ⟨by simp, C9_exporter_preserves_input [newImg 4 4 clearPx] 0 (0, 0, 0) (by simp)⟩

/-- C10: for every input image, whatever its dimensions, the splash canvas is
allocated at the fixed size `SIZE*2 × SIZE*2 = 2048 × 2048` and the paste
offset is the constant `(512, 512)` computed from the module constant `SIZE`,
not from the input image's edge length. -/
theorem C10_splash_fixed_canvas (img : Img) (bg : ℕ × ℕ × ℕ) :
    (splashOf img bg).width = SIZE * 2 ∧ (splashOf img bg).height = SIZE * 2 ∧
    (splashOf img bg).width = 2048 ∧ (splashOf img bg).height = 2048 ∧
    splashOffset = (512, 512) :=
  ⟨rfl, rfl, rfl, rfl, by decide⟩

end HabitX
